import Mathlib

/-!
Verification of the kaya repository's sync engine, authenticated-request
layer and credential store against its natural-language specification.

The definitions below are a shallow embedding of the Python source:
  - `kaya_api_post`, `postGo`   embed `data_puller.kaya_api_post`
  - `update_tokens`             embeds `data_puller.update_tokens`
  - `update_env_var`, `write_secrets` embed `secrets.write_secrets`
    (local backend branch)
  - `stepPage`, `finishSync`, `syncLoop`, `update_gym_data` embed
    `data_puller.update_gym_data`
External collaborators (the HTTP transport, the relational store) are
abstracted as oracles / trace events, exactly as the spec prescribes.
-/

/-! ## HTTP layer: abstract responses -/

/-- Outcome of one `requests.post` call, as observed by `kaya_api_post`:
a 2xx success, a 401, another HTTP error status (`raise_for_status`
raises), or a transport-level exception raised by `requests.post`. -/
inductive HttpResp where
  | ok
  | unauthorized
  | httpError
  | transportError
deriving DecidableEq

/-- Outcome of one invocation of the token-refresh operation
(`update_tokens`), abstracted for the model of `kaya_api_post` on a
generic endpoint: it returns normally, raises `requests.HTTPError`
(e.g. from `raise_for_status` on the refresh response), or raises some
other `Exception`. -/
inductive RefreshOutcome where
  | ok
  | failHttp
  | failOther
deriving DecidableEq

/-- Result of `kaya_api_post`: a successful response (recording on which
attempt), the terminal `Exception("Failed POST request after token
refresh attempts.")` at line 131 (the exhausted-retries error), a
propagated `requests.HTTPError`, a propagated transport exception, or a
propagated exception coming out of `update_tokens`. -/
inductive PostResult where
  | success (attempt : Nat)
  | exhausted
  | raisedHttp
  | raisedTransport
  | refreshRaised
deriving DecidableEq

/-- The `for attempt in range(max_retries + 1)` loop of `kaya_api_post`
(data_puller.py lines 95-131). `resp i` is the HTTP outcome of the
request sent on attempt `i`; `refresh j` is the outcome of the j-th call
to `update_tokens` made by this logical request; `rem` is the number of
loop iterations left, `rc` the number of refresh calls made so far.

Branches, traced from the source:
  - 2xx: `return response`.
  - transport exception: caught by the blanket handler, re-raised.
  - non-401 HTTP status: `raise_for_status` raises; the handler sees
    `status_code != 401` and re-raises.
  - 401: the `if response.status_code == 401` branch (line 103) runs
    BEFORE `raise_for_status` and calls `update_tokens()`
    unconditionally, then `continue`s.  If that `update_tokens()` call
    itself raises an HTTPError, the `except requests.HTTPError` handler
    sees the outer 401 response and, when `attempt < max_retries`, calls
    `update_tokens()` once more from inside the handler (line 120); a
    failure there, or `attempt >= max_retries`, propagates. A non-HTTP
    exception from `update_tokens` hits `except Exception` and is
    re-raised. -/
def postGo (resp : Nat → HttpResp) (refresh : Nat → RefreshOutcome) (maxRetries : Nat) :
    Nat → Nat → Nat → PostResult × Nat
  | 0, _, rc => (.exhausted, rc)
  | rem + 1, attempt, rc =>
    match resp attempt with
    | .ok => (.success attempt, rc)
    | .transportError => (.raisedTransport, rc)
    | .httpError => (.raisedHttp, rc)
    | .unauthorized =>
      match refresh rc with
      | .ok => postGo resp refresh maxRetries rem (attempt + 1) (rc + 1)
      | .failHttp =>
        if attempt < maxRetries then
          match refresh (rc + 1) with
          | .ok => postGo resp refresh maxRetries rem (attempt + 1) (rc + 2)
          | _ => (.refreshRaised, rc + 2)
        else (.refreshRaised, rc + 1)
      | .failOther => (.refreshRaised, rc + 1)

/-- `kaya_api_post(url, json_data, max_retries)`: runs the attempt loop
with `max_retries + 1` iterations, starting with zero refresh calls.
Returns the result together with the total number of `update_tokens`
calls made for this logical request. -/
def kaya_api_post (resp : Nat → HttpResp) (refresh : Nat → RefreshOutcome)
    (maxRetries : Nat) : PostResult × Nat :=
  postGo resp refresh maxRetries (maxRetries + 1) 0 0

/-! ## Token refresh: `update_tokens` -/

/-- Result of `update_tokens` (data_puller.py lines 31-67): success, a
propagated HTTP / transport error, the propagated plain `Exception` from
an inner exhausted retry loop, or fuel exhaustion (the model's proxy for
non-terminating recursion). -/
inductive RefreshOut where
  | ok
  | raisedHttp
  | raisedTransport
  | exhausted
  | fuelOut
deriving DecidableEq

/-- `update_tokens`: issues one POST to the token-refresh endpoint via
`kaya_api_post(..., max_retries=0)`.  `refreshResp i` is the HTTP outcome
of the i-th POST made to the refresh endpoint during the whole (possibly
recursive) computation; the second component counts those POSTs.

With `max_retries = 0` the inner attempt loop has exactly one iteration:
  - 2xx: tokens parsed and persisted, return.
  - transport / non-401 HTTP error: propagates out of `update_tokens`.
  - 401: the unconditional 401 branch of `kaya_api_post` calls
    `update_tokens()` RECURSIVELY; if that nested call returns normally,
    `continue` ends the single-iteration loop and the plain exhausted
    `Exception` is raised; if it raises, the exception propagates
    (an HTTPError from the nested call hits the `except HTTPError`
    handler, which re-raises because `attempt < max_retries` is
    `0 < 0 = False`). -/
def update_tokens (refreshResp : Nat → HttpResp) : Nat → Nat → RefreshOut × Nat
  | 0, _ => (.fuelOut, 0)
  | fuel + 1, idx =>
    match refreshResp idx with
    | .ok => (.ok, 1)
    | .transportError => (.raisedTransport, 1)
    | .httpError => (.raisedHttp, 1)
    | .unauthorized =>
      let r := update_tokens refreshResp fuel (idx + 1)
      match r.1 with
      | .ok => (.exhausted, 1 + r.2)
      | o => (o, 1 + r.2)

/-! ## Credential file: `secrets.write_secrets`, local backend -/

/-- The whitespace characters removed by Python's `str.strip()`. -/
def pyIsSpace (c : Char) : Bool :=
  c = ' ' || c = '\t' || c = '\n' || c = '\r' || c = '\x0b' || c = '\x0c'

/-- `str.strip()`: drop whitespace from both ends. -/
def pyStrip (l : List Char) : List Char :=
  ((l.dropWhile pyIsSpace).reverse.dropWhile pyIsSpace).reverse

/-- `str.startswith`, structurally on character lists. -/
def startsWithChars : List Char → List Char → Bool
  | [], _ => true
  | _ :: _, [] => false
  | a :: as, b :: bs => a = b && startsWithChars as bs

/-- `line.strip().startswith(var + '=')`: the predicate the source uses
to recognize an existing `KEY=` line. -/
def isMatch (var line : String) : Bool :=
  startsWithChars (var.data ++ ['=']) (pyStrip line.data)

/-- The replacement / appended line `f'{var}={value}'` (the model keeps
file lines without their trailing newline). -/
def envLine (var value : String) : String := var ++ "=" ++ value

/-- `update_env_var(lines, var, value)` (secrets.py lines 93-105):
replaces every line whose stripped form starts with `var=`; if none
matched, appends `var=value` at the end. -/
def update_env_var (lines : List String) (var value : String) : List String :=
  let replaced := lines.map (fun l => if isMatch var l then envLine var value else l)
  if lines.any (fun l => isMatch var l) then replaced else replaced ++ [envLine var value]

/-- In-process environment plus the `.env` file, the state touched by the
local branch of `write_secrets`. -/
structure SecretsState where
  envApi : Option String
  envRefresh : Option String
  envFile : List String
deriving DecidableEq

/-- `write_secrets(new_access_token, new_refresh_token)` with the local
backend (secrets.py lines 57-114): sets both `os.environ` entries, then
rewrites the `.env` file by applying `update_env_var` for
`KAYA_API_TOKEN` and then for `KAYA_REFRESH_TOKEN`. -/
def write_secrets (st : SecretsState) (a r : String) : SecretsState :=
  let f1 := update_env_var st.envFile "KAYA_API_TOKEN" a
  let f2 := update_env_var f1 "KAYA_REFRESH_TOKEN" r
  { envApi := some a, envRefresh := some r, envFile := f2 }

/-! ## Sync engine: `update_gym_data` -/

/-- One normalized ascent row, restricted to the fields the claims
depend on: the natural key `send_id` plus the four columns that the
flush coerces (`stiffness`, `ascent_count` via `astype(int)`;
`is_private`, `is_premium` via `fillna(0).astype(int)`).  `none` models
a null (NaN) cell. -/
structure Rec where
  send_id : Nat
  stiffness : Option Int
  ascent_count : Option Int
  is_private : Option Int
  is_premium : Option Int
deriving DecidableEq

/-- A row after the pre-write dtype coercion. -/
structure RecOut where
  send_id : Nat
  stiffness : Int
  ascent_count : Int
  is_private : Int
  is_premium : Int
deriving DecidableEq

/-- Per-row coercion applied before each write (data_puller.py lines
530-545 and 576-591): `is_private` / `is_premium` get `fillna(0)` then
`astype(int)`; `stiffness` / `ascent_count` get a bare `astype(int)`,
which raises on a null value — modelled as `none`. -/
def coerceRec (r : Rec) : Option RecOut :=
  match r.stiffness, r.ascent_count with
  | some s, some a =>
    some ⟨r.send_id, s, a, r.is_private.getD 0, r.is_premium.getD 0⟩
  | _, _ => none

/-- Coercion of a whole batch: fails (the `astype(int)` raise) exactly
when some row fails. -/
def coerceBatch : List Rec → Option (List RecOut)
  | [] => some []
  | r :: rs =>
    match coerceRec r, coerceBatch rs with
    | some o, some os => some (o :: os)
    | _, _ => none

/-- Sync mode: the source compares `mode == 'incremental'`; any other
string behaves as a full pull. -/
inductive Mode where
  | full
  | incremental
deriving DecidableEq

/-- Outcome of one `get_data_for_gym` call as seen by the engine's
`try/except`: a page of entries, or an exception.  `authExhausted` is
the exhausted-auth-retries exception, `fetchError` any other exception;
the source's handler is a blanket `except Exception`, so the loop treats
both identically — keeping them separate constructors lets the claims
about auth failures be stated. -/
inductive FetchResult where
  | page (entries : List Rec)
  | fetchError
  | authExhausted
deriving DecidableEq

/-- The incremental-dedup block (data_puller.py lines 510-525), run on a
non-empty page.  Returns `none` when the loop breaks because the whole
page was dropped (the incremental frontier), otherwise the surviving
rows together with the updated seen-set.  In full mode the page passes
through untouched and the seen-set is not updated. -/
def stepPage (mode : Mode) (seen : List Nat) (entries : List Rec) :
    Option (List Rec × List Nat) :=
  match mode with
  | .full => some (entries, seen)
  | .incremental =>
    if seen.isEmpty then
      some (entries, seen ++ entries.map (fun r => r.send_id))
    else
      if entries.any (fun r => seen.contains r.send_id) then
        let df := entries.filter (fun r => !(seen.contains r.send_id))
        if df.isEmpty then none
        else some (df, seen ++ df.map (fun r => r.send_id))
      else
        some (entries, seen ++ entries.map (fun r => r.send_id))

/-- Result of a run: `done ret totalWritten` models a normal return
(`ret` is the returned value — the final batch, or `None`), `flushError`
a propagated coercion exception, `outOfFuel` the model's proxy for a
run that has not terminated within the given fuel. -/
inductive Outcome where
  | done (ret : Option (List RecOut)) (totalWritten : Nat)
  | flushError
  | outOfFuel
deriving DecidableEq

/-- Observable trace of one `update_gym_data` run: the offsets passed to
`get_data_for_gym` in call order, the surviving page slices appended to
`all_data`, the batches passed to `write_dataframe` inside the loop, the
single post-loop write (if any), and the outcome. -/
structure SyncTrace where
  fetches : List Nat
  appends : List (List Rec)
  writes : List (List RecOut)
  finalWrite : Option (List RecOut)
  outcome : Outcome
deriving DecidableEq

/-- The post-loop epilogue (data_puller.py lines 572-611): if rows are
pending, coerce and write them once and return that batch, else return
`None`. -/
def finishSync (pending : List Rec) (tw : Nat) : Option (List RecOut) × Outcome :=
  if pending.isEmpty then (none, .done none tw)
  else
    match coerceBatch pending with
    | none => (none, .flushError)
    | some out => (some out, .done (some out) (tw + out.length))

/-- The `while True` loop of `update_gym_data` (lines 486-569), fuelled.
Arguments: fuel, global fetch-call index, current offset, pending
unflushed rows (the concatenation of `all_data`), seen send ids, running
total-written counter.  Each iteration:
  - fetch; on any exception, sleep and `continue` at the SAME offset;
  - empty page: break;
  - incremental dedup via `stepPage`; whole page dropped: break;
  - append survivors; if the pending count reached `batch_size`, coerce
    (a null `stiffness` / `ascent_count` raises out of the run) and
    write, then clear;
  - if the SURVIVING slice has fewer than 15 rows, break; else advance
    the offset by the fixed page size 15. -/
def syncLoop (fetch : Nat → FetchResult) (mode : Mode) (batchSize : Nat) :
    Nat → Nat → Nat → List Rec → List Nat → Nat → SyncTrace
  | 0, _, _, _, _, _ => ⟨[], [], [], none, .outOfFuel⟩
  | fuel + 1, callIdx, offset, pending, seen, tw =>
    match fetch callIdx with
    | .fetchError =>
      let t := syncLoop fetch mode batchSize fuel (callIdx + 1) offset pending seen tw
      ⟨offset :: t.fetches, t.appends, t.writes, t.finalWrite, t.outcome⟩
    | .authExhausted =>
      let t := syncLoop fetch mode batchSize fuel (callIdx + 1) offset pending seen tw
      ⟨offset :: t.fetches, t.appends, t.writes, t.finalWrite, t.outcome⟩
    | .page entries =>
      if entries.isEmpty then
        let r := finishSync pending tw
        ⟨[offset], [], [], r.1, r.2⟩
      else
        match stepPage mode seen entries with
        | none =>
          let r := finishSync pending tw
          ⟨[offset], [], [], r.1, r.2⟩
        | some (df, seen2) =>
          let pending2 := pending ++ df
          if batchSize ≤ pending2.length then
            match coerceBatch pending2 with
            | none => ⟨[offset], [df], [], none, .flushError⟩
            | some out =>
              if df.length < 15 then
                let r := finishSync [] (tw + out.length)
                ⟨[offset], [df], [out], r.1, r.2⟩
              else
                let t := syncLoop fetch mode batchSize fuel (callIdx + 1) (offset + 15)
                  [] seen2 (tw + out.length)
                ⟨offset :: t.fetches, df :: t.appends, out :: t.writes, t.finalWrite, t.outcome⟩
          else
            if df.length < 15 then
              let r := finishSync pending2 tw
              ⟨[offset], [df], [], r.1, r.2⟩
            else
              let t := syncLoop fetch mode batchSize fuel (callIdx + 1) (offset + 15)
                pending2 seen2 tw
              ⟨offset :: t.fetches, df :: t.appends, t.writes, t.finalWrite, t.outcome⟩

/-- `update_gym_data(gym_id, mode, batch_size, start_offset)`: loads the
existing send ids from the store in incremental mode (empty otherwise)
and runs the loop from `start_offset` with empty pending data. -/
def update_gym_data (fetch : Nat → FetchResult) (existingKeys : List Nat)
    (mode : Mode) (batchSize startOffset fuel : Nat) : SyncTrace :=
  let seen : List Nat :=
    match mode with
    | .incremental => existingKeys
    | .full => []
  syncLoop fetch mode batchSize fuel 0 startOffset [] seen 0

/-! ## Concrete inputs used by witnesses and counterexamples -/

/-- A record with the given send id and no null fields. -/
def recN (i : Nat) : Rec := ⟨i, some 0, some 0, some 0, some 0⟩

/-- A record with the given send id whose `stiffness` is null. -/
def recBad (i : Nat) : Rec := ⟨i, none, some 0, some 0, some 0⟩

/-- A full page: 15 records with send ids 1..15. -/
def entries15 : List Rec := (List.range 15).map (fun k => recN (k + 1))

/-- API stub: every call returns a two-row page with send ids 1 and 2. -/
def fetchC1 : Nat → FetchResult := fun _ => .page [recN 1, recN 2]

/-- API stub: every call returns the full page `entries15`. -/
def fetchC3 : Nat → FetchResult := fun _ => .page entries15

/-- API stub: the first call fails with the exhausted-auth-retries
exception, later calls return a one-row page. -/
def fetchC6 : Nat → FetchResult :=
  fun i => if i = 0 then .authExhausted else .page [recN 1]

/-- API stub: a full page followed by a short page repeating send id 1. -/
def fetchC7 : Nat → FetchResult :=
  fun i => if i = 0 then .page entries15 else .page [recN 1]

/-- API stub: every call returns a one-row page. -/
def fetchC8 : Nat → FetchResult := fun _ => .page [recN 1]

/-- API stub: every call returns a one-row page whose record has a null
stiffness. -/
def fetchBad : Nat → FetchResult := fun _ => .page [recBad 1]

/-- Refresh-endpoint stub: the first call to the refresh endpoint gets a
401, later calls succeed. -/
def refreshRespC5 : Nat → HttpResp :=
  fun i => if i = 0 then .unauthorized else .ok

/-- An initial credentials file used by the write_secrets witness. -/
def stC9 : SecretsState := ⟨none, none, ["FOO=bar", "KAYA_API_TOKEN=old", "BAZ=1"]⟩

/-! ## Helper lemmas -/

/-- Coercion preserves the batch length. -/
theorem coerceBatch_length {l : List Rec} {out : List RecOut}
    (h : coerceBatch l = some out) : out.length = l.length := by
  induction l generalizing out with
  | nil =>
    simp only [coerceBatch, Option.some.injEq] at h
    subst h; rfl
  | cons r rs ih =>
    simp only [coerceBatch] at h
    cases hr : coerceRec r <;> rw [hr] at h
    · exact absurd h (by simp)
    · cases hb : coerceBatch rs <;> rw [hb] at h
      · exact absurd h (by simp)
      · simp only [Option.some.injEq] at h
        subst h
        simp [ih hb]

/-- With at least one unit of fuel, the first fetch of the loop is made
at the current offset. -/
theorem syncLoop_fetches_head (fetch : Nat → FetchResult) (mode : Mode)
    (batchSize fuel callIdx offset tw : Nat) (pending : List Rec) (seen : List Nat) :
    (syncLoop fetch mode batchSize (fuel + 1) callIdx offset pending seen tw).fetches.head?
      = some offset := by
  simp only [syncLoop]
  cases fetch callIdx <;> simp only []
  case fetchError => rfl
  case authExhausted => rfl
  case page entries =>
    by_cases hE : entries.isEmpty
    · simp [hE]
    · simp only [hE, if_neg, Bool.false_eq_true, if_false]
      cases hs : stepPage mode seen entries with
      | none => rfl
      | some p =>
        obtain ⟨df, seen2⟩ := p
        by_cases hbs : batchSize ≤ (pending ++ df).length
        · simp only [hbs, if_true]
          cases hco : coerceBatch (pending ++ df) with
          | none => rfl
          | some out =>
            by_cases hdf : df.length < 15 <;> simp [hdf]
        · simp only [hbs, if_false]
          by_cases hdf : df.length < 15 <;> simp [hdf]

/-- With at least one unit of fuel, the loop's fetch trace is nonempty. -/
theorem syncLoop_fetches_ne (fetch : Nat → FetchResult) (mode : Mode)
    (batchSize fuel callIdx offset tw : Nat) (pending : List Rec) (seen : List Nat) :
    (syncLoop fetch mode batchSize (fuel + 1) callIdx offset pending seen tw).fetches ≠ [] := by
  intro h
  have := syncLoop_fetches_head fetch mode batchSize fuel callIdx offset tw pending seen
  rw [h] at this
  exact absurd this (by simp)

/-! ## Counterexamples -/

/-- Claim C2, counterexample: with retry budget `maxRetries = 0` and a
401 on every attempt (refreshes succeeding), `kaya_api_post` performs
one token-refresh attempt — not at most zero as the claim requires —
before failing with the exhausted-retries error. -/
theorem c2_counterexample :
    kaya_api_post (fun _ => .unauthorized) (fun _ => .ok) 0 = (.exhausted, 1) ∧
    ¬ (kaya_api_post (fun _ => .unauthorized) (fun _ => .ok) 0).2 ≤ 0 := by
  decide

/-- Claim C3, counterexample: in incremental mode with send id 1 already
stored, the page at offset 0 returns exactly 15 entries, 14 of which
survive dedup filtering and are appended (so neither the empty-page nor
the frontier rule fired), yet with ample fuel the loop makes no further
fetch: the short-page rule fired on a page that returned exactly 15
entries, because the source tests the length of the FILTERED frame. -/
theorem c3_counterexample :
    entries15.length = 15 ∧ fetchC3 0 = .page entries15 ∧
    (update_gym_data fetchC3 [1] .incremental 1000 0 5).fetches = [0] ∧
    (update_gym_data fetchC3 [1] .incremental 1000 0 5).appends.map List.length = [14] := by
  decide

/-- Claim C6, counterexample: the fetch at call 0 fails with the
exhausted-auth-retries exception, yet the sync call does not fail: the
engine's blanket exception handler retries the same offset, the next
fetch succeeds, and the run completes normally, writing one record —
contradicting "fatal for the current sync call and propagates to the
caller". -/
theorem c6_counterexample :
    fetchC6 0 = .authExhausted ∧
    (update_gym_data fetchC6 [] .full 1000 0 5).fetches = [0, 0] ∧
    (update_gym_data fetchC6 [] .full 1000 0 5).outcome =
      .done (some [⟨1, 0, 0, 0, 0⟩]) 1 := by
  decide

/-- Claim C7, counterexample: in a full-mode run, two pages both contain
natural key 1; the record carrying key 1 is appended twice and written
twice — full mode performs no cross-page dedup. -/
theorem c7_counterexample :
    recN 1 ∈ entries15 ∧ fetchC7 0 = .page entries15 ∧ fetchC7 1 = .page [recN 1] ∧
    ((update_gym_data fetchC7 [] .full 1000 0 5).appends.flatten.filter
        (fun r => r.send_id == 1)).length = 2 ∧
    (((update_gym_data fetchC7 [] .full 1000 0 5).finalWrite.getD []).filter
        (fun o => o.send_id == 1)).length = 2 := by
  decide

/-- Claim C8, counterexample: with `batch_size = 1` and a single short
page, the only page is flushed inside the loop, the pending list is
empty at loop exit, and the run returns `None` even though one record
was written — contradicting "returns None if and only if nothing was
ever written". -/
theorem c8_counterexample :
    (update_gym_data fetchC8 [] .full 1 0 5).outcome = .done none 1 ∧
    ((update_gym_data fetchC8 [] .full 1 0 5).writes.map List.length).sum = 1 := by
  decide

/-! ## C5: token refresh recursion -/

/-- If the refresh endpoint answers 401 forever, the recursion of
`update_tokens` through the unconditional 401 branch of `kaya_api_post`
never terminates: every amount of fuel is consumed, one refresh-endpoint
call per level. -/
theorem update_tokens_const401 :
    ∀ n idx : Nat, update_tokens (fun _ => .unauthorized) n idx = (.fuelOut, n) := by
  intro n
  induction n with
  | zero => intro idx; rfl
  | succ k ih =>
    intro idx
    simp only [update_tokens, ih (idx + 1)]
    simp [Nat.add_comm]

/-- Claim C5: evaluation of `update_tokens` at the failing input.  When
the refresh endpoint itself responds 401 to the refresh call (and 2xx to
the nested one), `update_tokens` makes TWO HTTP calls to the refresh
endpoint — the 401 branch of `kaya_api_post` recursively triggers a
nested `update_tokens` despite the zero retry budget — and then fails
with the plain exhausted-retries `Exception`, not a successful return.
When the 401 persists, the recursion never terminates (second
conjunct), contradicting the spec's "must NOT recursively trigger
another refresh attempt". -/
theorem c5_refresh_recursion :
    update_tokens refreshRespC5 5 0 = (.exhausted, 2) ∧
    (∀ n : Nat, update_tokens (fun _ => .unauthorized) n 0 = (.fuelOut, n)) :=
  ⟨by decide, fun n => update_tokens_const401 n 0⟩

/-! ## C2: auth retry bound -/

/-- Refresh-count bound for the attempt loop of `kaya_api_post`: when
every token refresh succeeds, the loop performs at most one refresh per
remaining iteration, and performs exactly one per iteration — ending in
the exhausted-retries error — when every response is a 401. -/
theorem postGo_bound (resp : Nat → HttpResp) (refresh : Nat → RefreshOutcome)
    (maxRetries : Nat) (hr : ∀ i, refresh i = .ok) :
    ∀ rem attempt rc,
      (postGo resp refresh maxRetries rem attempt rc).2 ≤ rc + rem ∧
      ((∀ i, resp i = .unauthorized) →
        postGo resp refresh maxRetries rem attempt rc = (.exhausted, rc + rem)) := by
  intro rem
  induction rem with
  | zero =>
    intro attempt rc
    exact ⟨Nat.le_refl _, fun _ => rfl⟩
  | succ k ih =>
    intro attempt rc
    constructor
    · cases hq : resp attempt <;> simp only [postGo, hq, hr rc]
      · exact Nat.le_add_right _ _
      · have := (ih (attempt + 1) (rc + 1)).1
        omega
      · exact Nat.le_add_right _ _
      · exact Nat.le_add_right _ _
    · intro hall
      simp only [postGo, hall attempt, hr rc]
      have := (ih (attempt + 1) (rc + 1)).2 hall
      rw [this]
      have : rc + 1 + k = rc + (k + 1) := by omega
      rw [this]

/-- Claim C2 (amended): for `maxRetries = N`, when token refreshes
succeed, at most N + 1 refresh attempts occur for a single logical
request (not N as claimed: the 401 branch refreshes before the retry
budget is consulted); and if a 401 recurs on every attempt, the
(N+1)-th consecutive auth failure triggers one final refresh and then
the call fails with the exhausted-retries error — it never loops
forever. -/
theorem c2_auth_retry_bound (resp : Nat → HttpResp) (refresh : Nat → RefreshOutcome)
    (N : Nat) (hr : ∀ i, refresh i = .ok) :
    (kaya_api_post resp refresh N).2 ≤ N + 1 ∧
    ((∀ i, resp i = .unauthorized) →
      kaya_api_post resp refresh N = (.exhausted, N + 1)) := by
  have h := postGo_bound resp refresh N hr (N + 1) 0 0
  unfold kaya_api_post
  simpa using h

/-- Witness for C2's amended theorem at `N = 1` with all-401 responses
and always-succeeding refreshes. -/
theorem c2_auth_retry_bound_witness :
    (∀ i : Nat, (fun _ : Nat => RefreshOutcome.ok) i = RefreshOutcome.ok) ∧
    (kaya_api_post (fun _ => .unauthorized) (fun _ => RefreshOutcome.ok) 1).2 ≤ 2 :=
  ⟨fun _ => rfl,
   (c2_auth_retry_bound (fun _ => .unauthorized) (fun _ => RefreshOutcome.ok) 1
     (fun _ => rfl)).1⟩

/-! ## C1: incremental frontier -/

/-- When every key of a nonempty page is already in the seen set, the
incremental dedup block drops the whole page and signals the break. -/
theorem stepPage_frontier {seen : List Nat} {entries : List Rec}
    (hne : entries ≠ []) (hsub : ∀ r ∈ entries, r.send_id ∈ seen) :
    stepPage .incremental seen entries = none := by
  obtain ⟨r0, hr0⟩ := List.exists_mem_of_ne_nil entries hne
  have hseen : seen.isEmpty = false := by
    rw [Bool.eq_false_iff]
    intro h
    rw [List.isEmpty_iff] at h
    rw [h] at hsub
    exact absurd (hsub r0 hr0) (by simp)
  simp only [stepPage]
  simp [hseen]
  rw [if_pos ⟨r0, hr0, hsub r0 hr0⟩, if_pos hsub]

/-- Claim C1: in incremental mode, if the seen-key set (initial store
keys plus keys added earlier in the run) contains every natural key of
the nonempty page fetched at the current call, the loop makes that one
fetch and stops: no fetch at the next offset, nothing from this page is
appended, and the only possible write is the post-loop flush of rows
pending from earlier pages. -/
theorem c1_incremental_frontier (fetch : Nat → FetchResult)
    (batchSize fuel callIdx offset tw : Nat) (pending : List Rec) (seen : List Nat)
    (entries : List Rec)
    (hfetch : fetch callIdx = .page entries) (hne : entries ≠ [])
    (hsub : ∀ r ∈ entries, r.send_id ∈ seen) :
    syncLoop fetch .incremental batchSize (fuel + 1) callIdx offset pending seen tw =
      ⟨[offset], [], [], (finishSync pending tw).1, (finishSync pending tw).2⟩ := by
  have hE : entries.isEmpty = false := by
    rw [Bool.eq_false_iff]
    intro h
    exact hne (List.isEmpty_iff.mp h)
  simp [syncLoop, hfetch, hE, stepPage_frontier hne hsub]

/-- Witness for C1: seen keys [1, 2] cover the two-row page; the loop
stops after the single fetch at offset 30 and only flushes the one
pending row from an earlier page. -/
theorem c1_incremental_frontier_witness :
    fetchC1 0 = .page [recN 1, recN 2] ∧ [recN 1, recN 2] ≠ [] ∧
    (∀ r ∈ [recN 1, recN 2], r.send_id ∈ [1, 2]) ∧
    syncLoop fetchC1 .incremental 1000 3 0 30 [recN 9] [1, 2] 0 =
      ⟨[30], [], [], (finishSync [recN 9] 0).1, (finishSync [recN 9] 0).2⟩ :=
  ⟨rfl, by decide, by decide,
   c1_incremental_frontier fetchC1 1000 2 0 30 0 [recN 9] [1, 2] [recN 1, recN 2]
     rfl (by decide) (by decide)⟩


/-! ## One-step equations for the sync loop -/

/-- Loop step on a failed fetch (any exception): retry at the same
offset, consuming one unit of fuel and one fetch call. -/
theorem syncLoop_err (fetch : Nat → FetchResult) (mode : Mode)
    (batchSize fuel callIdx offset tw : Nat) (pending : List Rec) (seen : List Nat)
    (herr : fetch callIdx = .fetchError ∨ fetch callIdx = .authExhausted) :
    syncLoop fetch mode batchSize (fuel + 1) callIdx offset pending seen tw =
      ⟨offset :: (syncLoop fetch mode batchSize fuel (callIdx + 1) offset pending seen tw).fetches,
       (syncLoop fetch mode batchSize fuel (callIdx + 1) offset pending seen tw).appends,
       (syncLoop fetch mode batchSize fuel (callIdx + 1) offset pending seen tw).writes,
       (syncLoop fetch mode batchSize fuel (callIdx + 1) offset pending seen tw).finalWrite,
       (syncLoop fetch mode batchSize fuel (callIdx + 1) offset pending seen tw).outcome⟩ := by
  cases herr with
  | inl h => simp only [syncLoop, h]
  | inr h => simp only [syncLoop, h]

/-- Loop step on an empty page: break and run the epilogue. -/
theorem syncLoop_empty (fetch : Nat → FetchResult) (mode : Mode)
    (batchSize fuel callIdx offset tw : Nat) (pending : List Rec) (seen : List Nat)
    (entries : List Rec) (hfetch : fetch callIdx = .page entries)
    (hE : entries.isEmpty = true) :
    syncLoop fetch mode batchSize (fuel + 1) callIdx offset pending seen tw =
      ⟨[offset], [], [], (finishSync pending tw).1, (finishSync pending tw).2⟩ := by
  simp only [syncLoop, hfetch, hE, if_true]

/-- Loop step when the whole page is dropped by incremental dedup:
break and run the epilogue. -/
theorem syncLoop_frontier_step (fetch : Nat → FetchResult) (mode : Mode)
    (batchSize fuel callIdx offset tw : Nat) (pending : List Rec) (seen : List Nat)
    (entries : List Rec) (hfetch : fetch callIdx = .page entries)
    (hne : entries.isEmpty = false) (hstep : stepPage mode seen entries = none) :
    syncLoop fetch mode batchSize (fuel + 1) callIdx offset pending seen tw =
      ⟨[offset], [], [], (finishSync pending tw).1, (finishSync pending tw).2⟩ := by
  simp only [syncLoop, hfetch, hne, Bool.false_eq_true, if_false, hstep]

/-- Loop step when the flush threshold is met but coercion fails: the
exception propagates; nothing is written. -/
theorem syncLoop_flush_raise (fetch : Nat → FetchResult) (mode : Mode)
    (batchSize fuel callIdx offset tw : Nat) (pending : List Rec) (seen seen2 : List Nat)
    (entries df : List Rec) (hfetch : fetch callIdx = .page entries)
    (hne : entries.isEmpty = false) (hstep : stepPage mode seen entries = some (df, seen2))
    (hbs : batchSize ≤ (pending ++ df).length)
    (hco : coerceBatch (pending ++ df) = none) :
    syncLoop fetch mode batchSize (fuel + 1) callIdx offset pending seen tw =
      ⟨[offset], [df], [], none, .flushError⟩ := by
  simp only [syncLoop, hfetch, hne, Bool.false_eq_true, if_false, hstep, hbs, if_true, hco]

/-- Loop step: flush succeeds and the surviving slice is short — write
the batch, break, run the epilogue on the now-empty pending list. -/
theorem syncLoop_flush_short (fetch : Nat → FetchResult) (mode : Mode)
    (batchSize fuel callIdx offset tw : Nat) (pending : List Rec) (seen seen2 : List Nat)
    (entries df : List Rec) (out : List RecOut) (hfetch : fetch callIdx = .page entries)
    (hne : entries.isEmpty = false) (hstep : stepPage mode seen entries = some (df, seen2))
    (hbs : batchSize ≤ (pending ++ df).length)
    (hout : coerceBatch (pending ++ df) = some out) (hdf : df.length < 15) :
    syncLoop fetch mode batchSize (fuel + 1) callIdx offset pending seen tw =
      ⟨[offset], [df], [out], (finishSync [] (tw + out.length)).1,
       (finishSync [] (tw + out.length)).2⟩ := by
  simp only [syncLoop, hfetch, hne, Bool.false_eq_true, if_false, hstep, hbs, if_true, hout,
    hdf]

/-- Loop step: flush succeeds and the surviving slice is full — write
the batch and continue at the next offset with an empty pending list. -/
theorem syncLoop_flush_cont (fetch : Nat → FetchResult) (mode : Mode)
    (batchSize fuel callIdx offset tw : Nat) (pending : List Rec) (seen seen2 : List Nat)
    (entries df : List Rec) (out : List RecOut) (hfetch : fetch callIdx = .page entries)
    (hne : entries.isEmpty = false) (hstep : stepPage mode seen entries = some (df, seen2))
    (hbs : batchSize ≤ (pending ++ df).length)
    (hout : coerceBatch (pending ++ df) = some out) (hdf : ¬ df.length < 15) :
    syncLoop fetch mode batchSize (fuel + 1) callIdx offset pending seen tw =
      ⟨offset :: (syncLoop fetch mode batchSize fuel (callIdx + 1) (offset + 15) [] seen2
          (tw + out.length)).fetches,
       df :: (syncLoop fetch mode batchSize fuel (callIdx + 1) (offset + 15) [] seen2
          (tw + out.length)).appends,
       out :: (syncLoop fetch mode batchSize fuel (callIdx + 1) (offset + 15) [] seen2
          (tw + out.length)).writes,
       (syncLoop fetch mode batchSize fuel (callIdx + 1) (offset + 15) [] seen2
          (tw + out.length)).finalWrite,
       (syncLoop fetch mode batchSize fuel (callIdx + 1) (offset + 15) [] seen2
          (tw + out.length)).outcome⟩ := by
  simp only [syncLoop, hfetch, hne, Bool.false_eq_true, if_false, hstep, hbs, if_true, hout,
    hdf]

/-- Loop step: threshold not reached and the surviving slice is short —
break and run the epilogue on the extended pending list. -/
theorem syncLoop_noflush_short (fetch : Nat → FetchResult) (mode : Mode)
    (batchSize fuel callIdx offset tw : Nat) (pending : List Rec) (seen seen2 : List Nat)
    (entries df : List Rec) (hfetch : fetch callIdx = .page entries)
    (hne : entries.isEmpty = false) (hstep : stepPage mode seen entries = some (df, seen2))
    (hbs : ¬ batchSize ≤ (pending ++ df).length) (hdf : df.length < 15) :
    syncLoop fetch mode batchSize (fuel + 1) callIdx offset pending seen tw =
      ⟨[offset], [df], [], (finishSync (pending ++ df) tw).1,
       (finishSync (pending ++ df) tw).2⟩ := by
  simp only [syncLoop, hfetch, hne, Bool.false_eq_true, if_false, hstep, hbs, hdf, if_true]

/-- Loop step: threshold not reached and the surviving slice is full —
continue at the next offset with the extended pending list. -/
theorem syncLoop_noflush_cont (fetch : Nat → FetchResult) (mode : Mode)
    (batchSize fuel callIdx offset tw : Nat) (pending : List Rec) (seen seen2 : List Nat)
    (entries df : List Rec) (hfetch : fetch callIdx = .page entries)
    (hne : entries.isEmpty = false) (hstep : stepPage mode seen entries = some (df, seen2))
    (hbs : ¬ batchSize ≤ (pending ++ df).length) (hdf : ¬ df.length < 15) :
    syncLoop fetch mode batchSize (fuel + 1) callIdx offset pending seen tw =
      ⟨offset :: (syncLoop fetch mode batchSize fuel (callIdx + 1) (offset + 15)
          (pending ++ df) seen2 tw).fetches,
       df :: (syncLoop fetch mode batchSize fuel (callIdx + 1) (offset + 15)
          (pending ++ df) seen2 tw).appends,
       (syncLoop fetch mode batchSize fuel (callIdx + 1) (offset + 15)
          (pending ++ df) seen2 tw).writes,
       (syncLoop fetch mode batchSize fuel (callIdx + 1) (offset + 15)
          (pending ++ df) seen2 tw).finalWrite,
       (syncLoop fetch mode batchSize fuel (callIdx + 1) (offset + 15)
          (pending ++ df) seen2 tw).outcome⟩ := by
  simp only [syncLoop, hfetch, hne, Bool.false_eq_true, if_false, hstep, hbs, hdf]

/-! ## C3: short-page rule -/

/-- Claim C3 (amended): the short-page rule tests the SURVIVING entry
count after dedup filtering, not the returned count.  At any reachable
loop state, when a nonempty page is fetched and not wholly dropped and
the flush (if triggered) does not raise, the loop terminates at this
page exactly when fewer than 15 entries survive filtering.  In full
mode the surviving count equals the returned count, so the original
wording holds there; in incremental mode a page that returned exactly
15 entries can end the loop once filtering drops some of them. -/
theorem c3_short_page_filtered (fetch : Nat → FetchResult) (mode : Mode)
    (batchSize fuel callIdx offset tw : Nat) (pending : List Rec)
    (seen seen2 : List Nat) (entries df : List Rec)
    (hfetch : fetch callIdx = .page entries) (hne : entries.isEmpty = false)
    (hstep : stepPage mode seen entries = some (df, seen2))
    (hco : coerceBatch (pending ++ df) ≠ none) :
    ((syncLoop fetch mode batchSize (fuel + 2) callIdx offset pending seen tw).fetches
        = [offset]) ↔ df.length < 15 := by
  obtain ⟨out, hout⟩ : ∃ out, coerceBatch (pending ++ df) = some out := by
    cases h : coerceBatch (pending ++ df)
    · exact absurd h hco
    · exact ⟨_, rfl⟩
  show (syncLoop fetch mode batchSize (fuel + 1 + 1) callIdx offset pending seen tw).fetches
      = [offset] ↔ _
  by_cases hbs : batchSize ≤ (pending ++ df).length
  · by_cases hdf : df.length < 15
    · rw [syncLoop_flush_short fetch mode batchSize (fuel + 1) callIdx offset tw pending
        seen seen2 entries df out hfetch hne hstep hbs hout hdf]
      simp [hdf]
    · rw [syncLoop_flush_cont fetch mode batchSize (fuel + 1) callIdx offset tw pending
        seen seen2 entries df out hfetch hne hstep hbs hout hdf]
      constructor
      · intro h
        rw [List.cons.injEq] at h
        exact absurd h.2 (syncLoop_fetches_ne fetch mode batchSize fuel (callIdx + 1)
          (offset + 15) (tw + out.length) [] seen2)
      · intro h
        exact absurd h hdf
  · by_cases hdf : df.length < 15
    · rw [syncLoop_noflush_short fetch mode batchSize (fuel + 1) callIdx offset tw pending
        seen seen2 entries df hfetch hne hstep hbs hdf]
      simp [hdf]
    · rw [syncLoop_noflush_cont fetch mode batchSize (fuel + 1) callIdx offset tw pending
        seen seen2 entries df hfetch hne hstep hbs hdf]
      constructor
      · intro h
        rw [List.cons.injEq] at h
        exact absurd h.2 (syncLoop_fetches_ne fetch mode batchSize fuel (callIdx + 1)
          (offset + 15) tw (pending ++ df) seen2)
      · intro h
        exact absurd h hdf

/-- Witness for C3's amended theorem: a one-row page (one surviving row,
fewer than 15) ends the loop. -/
theorem c3_short_page_filtered_witness :
    fetchC8 0 = .page [recN 1] ∧ ([recN 1] : List Rec).isEmpty = false ∧
    stepPage .full [] [recN 1] = some ([recN 1], []) ∧
    coerceBatch ([] ++ [recN 1]) ≠ none ∧
    (((syncLoop fetchC8 .full 1000 2 0 0 [] [] 0).fetches = [0]) ↔
      ([recN 1] : List Rec).length < 15) :=
  ⟨rfl, by decide, rfl, by decide,
   c3_short_page_filtered fetchC8 .full 1000 0 0 0 0 [] [] [] [recN 1] [recN 1]
     rfl (by decide) rfl (by decide)⟩

/-! ## C4: batch flush threshold -/

/-- The epilogue flush, fed a remainder smaller than the batch size,
writes a nonempty batch smaller than the batch size (or nothing). -/
theorem finishSync_small {batchSize : Nat} (pending : List Rec) (tw : Nat)
    (h : pending.length < batchSize) :
    ∀ w, (finishSync pending tw).1 = some w → 0 < w.length ∧ w.length < batchSize := by
  intro w hw
  unfold finishSync at hw
  by_cases hp : pending.isEmpty
  · rw [if_pos hp] at hw
    exact absurd hw (by simp)
  · rw [if_neg hp] at hw
    cases hco : coerceBatch pending <;> rw [hco] at hw
    · exact absurd hw (by simp)
    · simp only [Option.some.injEq] at hw
      subst hw
      have hl := coerceBatch_length hco
      refine ⟨?_, by omega⟩
      rw [hl]
      cases pending with
      | nil => exact absurd rfl hp
      | cons a l => simp

/-- Invariant of the sync loop: starting below the flush threshold,
every in-loop write has at least `batchSize` rows, and the post-loop
write (when present) is nonempty and strictly below `batchSize`. -/
theorem syncLoop_flush_bounds (fetch : Nat → FetchResult) (mode : Mode) (batchSize : Nat) :
    ∀ fuel callIdx offset tw (pending : List Rec) (seen : List Nat),
      pending.length < batchSize →
      (∀ w ∈ (syncLoop fetch mode batchSize fuel callIdx offset pending seen tw).writes,
        batchSize ≤ w.length) ∧
      (∀ w, (syncLoop fetch mode batchSize fuel callIdx offset pending seen tw).finalWrite
          = some w → 0 < w.length ∧ w.length < batchSize) := by
  intro fuel
  induction fuel with
  | zero =>
    intro callIdx offset tw pending seen h
    exact ⟨fun w hw => absurd hw (by simp [syncLoop]),
           fun w hw => absurd hw (by simp [syncLoop])⟩
  | succ k ih =>
    intro callIdx offset tw pending seen h
    cases hf : fetch callIdx with
    | fetchError =>
      rw [syncLoop_err fetch mode batchSize k callIdx offset tw pending seen (Or.inl hf)]
      exact ih (callIdx + 1) offset tw pending seen h
    | authExhausted =>
      rw [syncLoop_err fetch mode batchSize k callIdx offset tw pending seen (Or.inr hf)]
      exact ih (callIdx + 1) offset tw pending seen h
    | page entries =>
      by_cases hE : entries.isEmpty
      · rw [syncLoop_empty fetch mode batchSize k callIdx offset tw pending seen entries hf hE]
        exact ⟨fun w hw => absurd hw (by simp), finishSync_small pending tw h⟩
      · have hE' : entries.isEmpty = false := by simpa using hE
        cases hs : stepPage mode seen entries with
        | none =>
          rw [syncLoop_frontier_step fetch mode batchSize k callIdx offset tw pending seen
            entries hf hE' hs]
          exact ⟨fun w hw => absurd hw (by simp), finishSync_small pending tw h⟩
        | some p =>
          obtain ⟨df, seen2⟩ := p
          by_cases hbs : batchSize ≤ (pending ++ df).length
          · cases hco : coerceBatch (pending ++ df) with
            | none =>
              rw [syncLoop_flush_raise fetch mode batchSize k callIdx offset tw pending seen
                seen2 entries df hf hE' hs hbs hco]
              exact ⟨fun w hw => absurd hw (by simp), fun w hw => absurd hw (by simp)⟩
            | some out =>
              have hout : batchSize ≤ out.length := by
                rw [coerceBatch_length hco]; exact hbs
              by_cases hdf : df.length < 15
              · rw [syncLoop_flush_short fetch mode batchSize k callIdx offset tw pending
                  seen seen2 entries df out hf hE' hs hbs hco hdf]
                refine ⟨fun w hw => ?_, fun w hw => absurd hw (by simp [finishSync])⟩
                rw [List.mem_singleton] at hw
                rw [hw]; exact hout
              · rw [syncLoop_flush_cont fetch mode batchSize k callIdx offset tw pending
                  seen seen2 entries df out hf hE' hs hbs hco hdf]
                have hrec := ih (callIdx + 1) (offset + 15) (tw + out.length) [] seen2
                  (by simpa using Nat.lt_of_le_of_lt (Nat.zero_le _) h)
                refine ⟨fun w hw => ?_, hrec.2⟩
                rw [List.mem_cons] at hw
                cases hw with
                | inl hw => rw [hw]; exact hout
                | inr hw => exact hrec.1 w hw
          · have hlt : (pending ++ df).length < batchSize := Nat.lt_of_not_le hbs
            by_cases hdf : df.length < 15
            · rw [syncLoop_noflush_short fetch mode batchSize k callIdx offset tw pending
                seen seen2 entries df hf hE' hs hbs hdf]
              exact ⟨fun w hw => absurd hw (by simp), finishSync_small (pending ++ df) tw hlt⟩
            · rw [syncLoop_noflush_cont fetch mode batchSize k callIdx offset tw pending
                seen seen2 entries df hf hE' hs hbs hdf]
              exact ih (callIdx + 1) (offset + 15) tw (pending ++ df) seen2 hlt

/-- Claim C4: for every run with a positive batch size, pending records
are flushed inside the loop only once their accumulated count has
reached `batchSize` (every in-loop batch has at least `batchSize` rows,
so at the start of every iteration the pending count is below the
threshold), and the remainder left at loop exit is flushed exactly once
by the post-loop write, which is nonempty and below the threshold. -/
theorem c4_batch_flush_threshold (fetch : Nat → FetchResult) (existingKeys : List Nat)
    (mode : Mode) (batchSize startOffset fuel : Nat) (hb : 0 < batchSize) :
    (∀ w ∈ (update_gym_data fetch existingKeys mode batchSize startOffset fuel).writes,
      batchSize ≤ w.length) ∧
    (∀ w, (update_gym_data fetch existingKeys mode batchSize startOffset fuel).finalWrite
        = some w → 0 < w.length ∧ w.length < batchSize) := by
  simp only [update_gym_data]
  exact syncLoop_flush_bounds fetch mode batchSize fuel 0 startOffset 0 []
    (match mode with | .incremental => existingKeys | .full => []) (by simpa using hb)

/-- Witness for C4 at batch size 2 with a single short page. -/
theorem c4_batch_flush_threshold_witness :
    0 < 2 ∧
    ((∀ w ∈ (update_gym_data fetchC8 [] .full 2 0 5).writes, 2 ≤ w.length) ∧
     (∀ w, (update_gym_data fetchC8 [] .full 2 0 5).finalWrite = some w →
        0 < w.length ∧ w.length < 2)) :=
  ⟨by decide, c4_batch_flush_threshold fetchC8 [] .full 2 0 5 (by decide)⟩

/-! ## C6: fetch failures are retried at the same offset -/

/-- With at least one unit of fuel, the first fetch of the loop is made
at the current offset (index form). -/
theorem syncLoop_fetches_zero (fetch : Nat → FetchResult) (mode : Mode)
    (batchSize fuel callIdx offset tw : Nat) (pending : List Rec) (seen : List Nat) :
    (syncLoop fetch mode batchSize (fuel + 1) callIdx offset pending seen tw).fetches[0]?
      = some offset := by
  have h := syncLoop_fetches_head fetch mode batchSize fuel callIdx offset tw pending seen
  rwa [List.head?_eq_getElem?] at h

/-- After any failed fetch, the next fetch of the run (when the loop
continues) is made at the same offset: exceptions never advance the
offset and never end the loop. -/
theorem syncLoop_err_retry (fetch : Nat → FetchResult) (mode : Mode) (batchSize : Nat) :
    ∀ fuel callIdx offset tw (pending : List Rec) (seen : List Nat) (i o1 o2 : Nat),
      (fetch (callIdx + i) = .authExhausted ∨ fetch (callIdx + i) = .fetchError) →
      (syncLoop fetch mode batchSize fuel callIdx offset pending seen tw).fetches[i]?
        = some o1 →
      (syncLoop fetch mode batchSize fuel callIdx offset pending seen tw).fetches[i + 1]?
        = some o2 →
      o1 = o2 := by
  intro fuel
  induction fuel with
  | zero =>
    intro callIdx offset tw pending seen i o1 o2 _ h1 _
    exact absurd h1 (by simp [syncLoop])
  | succ k ih =>
    intro callIdx offset tw pending seen i o1 o2 herr h1 h2
    cases hf : fetch callIdx with
    | fetchError =>
      rw [syncLoop_err fetch mode batchSize k callIdx offset tw pending seen (Or.inl hf)]
        at h1 h2
      cases i with
      | zero =>
        simp only [List.getElem?_cons_zero, Option.some.injEq] at h1
        simp only [List.getElem?_cons_succ] at h2
        cases k with
        | zero => exact absurd h2 (by simp [syncLoop])
        | succ j =>
          rw [syncLoop_fetches_zero fetch mode batchSize j (callIdx + 1) offset tw
            pending seen] at h2
          simp only [Option.some.injEq] at h2
          rw [← h1, ← h2]
      | succ i =>
        simp only [List.getElem?_cons_succ] at h1 h2
        have heq : callIdx + (i + 1) = (callIdx + 1) + i := by omega
        rw [heq] at herr
        exact ih (callIdx + 1) offset tw pending seen i o1 o2 herr h1 h2
    | authExhausted =>
      rw [syncLoop_err fetch mode batchSize k callIdx offset tw pending seen (Or.inr hf)]
        at h1 h2
      cases i with
      | zero =>
        simp only [List.getElem?_cons_zero, Option.some.injEq] at h1
        simp only [List.getElem?_cons_succ] at h2
        cases k with
        | zero => exact absurd h2 (by simp [syncLoop])
        | succ j =>
          rw [syncLoop_fetches_zero fetch mode batchSize j (callIdx + 1) offset tw
            pending seen] at h2
          simp only [Option.some.injEq] at h2
          rw [← h1, ← h2]
      | succ i =>
        simp only [List.getElem?_cons_succ] at h1 h2
        have heq : callIdx + (i + 1) = (callIdx + 1) + i := by omega
        rw [heq] at herr
        exact ih (callIdx + 1) offset tw pending seen i o1 o2 herr h1 h2
    | page entries =>
      have hpage : ∀ i', i' = 0 → ¬ (fetch (callIdx + i') = .authExhausted ∨
          fetch (callIdx + i') = .fetchError) := by
        intro i' hi'
        subst hi'
        rw [Nat.add_zero, hf]
        rintro (h | h) <;> simp at h
      by_cases hE : entries.isEmpty
      · rw [syncLoop_empty fetch mode batchSize k callIdx offset tw pending seen entries
          hf hE] at h2
        exact absurd h2 (by simp)
      · have hE' : entries.isEmpty = false := by simpa using hE
        cases hs : stepPage mode seen entries with
        | none =>
          rw [syncLoop_frontier_step fetch mode batchSize k callIdx offset tw pending seen
            entries hf hE' hs] at h2
          exact absurd h2 (by simp)
        | some p =>
          obtain ⟨df, seen2⟩ := p
          by_cases hbs : batchSize ≤ (pending ++ df).length
          · cases hco : coerceBatch (pending ++ df) with
            | none =>
              rw [syncLoop_flush_raise fetch mode batchSize k callIdx offset tw pending
                seen seen2 entries df hf hE' hs hbs hco] at h2
              exact absurd h2 (by simp)
            | some out =>
              by_cases hdf : df.length < 15
              · rw [syncLoop_flush_short fetch mode batchSize k callIdx offset tw pending
                  seen seen2 entries df out hf hE' hs hbs hco hdf] at h2
                exact absurd h2 (by simp)
              · rw [syncLoop_flush_cont fetch mode batchSize k callIdx offset tw pending
                  seen seen2 entries df out hf hE' hs hbs hco hdf] at h1 h2
                cases i with
                | zero => exact absurd herr (hpage 0 rfl)
                | succ i =>
                  simp only [List.getElem?_cons_succ] at h1 h2
                  have heq : callIdx + (i + 1) = (callIdx + 1) + i := by omega
                  rw [heq] at herr
                  exact ih (callIdx + 1) (offset + 15) (tw + out.length) [] seen2 i o1 o2
                    herr h1 h2
          · by_cases hdf : df.length < 15
            · rw [syncLoop_noflush_short fetch mode batchSize k callIdx offset tw pending
                seen seen2 entries df hf hE' hs hbs hdf] at h2
              exact absurd h2 (by simp)
            · rw [syncLoop_noflush_cont fetch mode batchSize k callIdx offset tw pending
                seen seen2 entries df hf hE' hs hbs hdf] at h1 h2
              cases i with
              | zero => exact absurd herr (hpage 0 rfl)
              | succ i =>
                simp only [List.getElem?_cons_succ] at h1 h2
                have heq : callIdx + (i + 1) = (callIdx + 1) + i := by omega
                rw [heq] at herr
                exact ih (callIdx + 1) (offset + 15) tw (pending ++ df) seen2 i o1 o2
                  herr h1 h2

/-- Claim C6 (amended): the engine's handler around the fetch is a
blanket `except Exception`, so EVERY fetch failure — the
exhausted-auth-retries exception included — is logged and retried at
the SAME offset after the fixed backoff; no fetch failure is fatal for
the sync call.  Whenever the fetch at call index i of a run fails, the
next fetch of the run (if any) reuses the same offset. -/
theorem c6_fetch_error_retries_same_offset (fetch : Nat → FetchResult)
    (existingKeys : List Nat) (mode : Mode) (batchSize startOffset fuel i o1 o2 : Nat)
    (herr : fetch i = .authExhausted ∨ fetch i = .fetchError)
    (h1 : (update_gym_data fetch existingKeys mode batchSize startOffset fuel).fetches[i]?
        = some o1)
    (h2 : (update_gym_data fetch existingKeys mode batchSize startOffset fuel).fetches[i + 1]?
        = some o2) :
    o1 = o2 := by
  cases mode with
  | incremental =>
    exact syncLoop_err_retry fetch .incremental batchSize fuel 0 startOffset 0 []
      existingKeys i o1 o2 (by simpa using herr) h1 h2
  | full =>
    exact syncLoop_err_retry fetch .full batchSize fuel 0 startOffset 0 []
      [] i o1 o2 (by simpa using herr) h1 h2

/-- Witness for C6's amended theorem: the failed fetch at call 0 and the
retry at call 1 both target offset 0. -/
theorem c6_fetch_error_retries_same_offset_witness :
    (fetchC6 0 = .authExhausted ∨ fetchC6 0 = .fetchError) ∧
    (update_gym_data fetchC6 [] .full 1000 0 5).fetches[0]? = some 0 ∧
    (update_gym_data fetchC6 [] .full 1000 0 5).fetches[1]? = some 0 ∧
    (0 : Nat) = 0 :=
  ⟨Or.inl rfl, by decide, by decide,
   c6_fetch_error_retries_same_offset fetchC6 [] .full 1000 0 5 0 0 0 (Or.inl rfl)
     (by decide) (by decide)⟩

/-! ## C7: dedup within a run -/

/-- In incremental mode, the updated seen set returned by the dedup
block is the old one extended with the surviving page's keys. -/
theorem stepPage_seen2 {seen : List Nat} {entries df : List Rec} {seen2 : List Nat}
    (h : stepPage .incremental seen entries = some (df, seen2)) :
    seen2 = seen ++ df.map (fun r => r.send_id) := by
  simp only [stepPage] at h
  by_cases hseen : seen.isEmpty
  · rw [if_pos hseen] at h
    simp only [Option.some.injEq, Prod.mk.injEq] at h
    rw [← h.2, h.1]
  · rw [if_neg hseen] at h
    by_cases hany : entries.any (fun r => seen.contains r.send_id)
    · rw [if_pos hany] at h
      by_cases hfil : (entries.filter (fun r => !(seen.contains r.send_id))).isEmpty
      · rw [if_pos hfil] at h
        exact absurd h (by simp)
      · rw [if_neg hfil] at h
        simp only [Option.some.injEq, Prod.mk.injEq] at h
        rw [← h.2, h.1]
    · rw [if_neg hany] at h
      simp only [Option.some.injEq, Prod.mk.injEq] at h
      rw [← h.2, h.1]

/-- In incremental mode, a page processed while key K is already seen
contributes no surviving record with key K. -/
theorem stepPage_no_seen_key {seen : List Nat} {entries df : List Rec} {seen2 : List Nat}
    {K : Nat} (h : stepPage .incremental seen entries = some (df, seen2)) (hK : K ∈ seen) :
    df.any (fun r => r.send_id == K) = false := by
  have hseen : seen.isEmpty = false := by
    rw [Bool.eq_false_iff]
    intro he
    rw [List.isEmpty_iff] at he
    rw [he] at hK
    simp at hK
  simp only [stepPage, hseen, Bool.false_eq_true, if_false] at h
  rw [List.any_eq_false]
  intro r hr
  by_cases hany : entries.any (fun r => seen.contains r.send_id)
  · rw [if_pos hany] at h
    by_cases hfil : (entries.filter (fun r => !(seen.contains r.send_id))).isEmpty
    · rw [if_pos hfil] at h
      exact absurd h (by simp)
    · rw [if_neg hfil] at h
      simp only [Option.some.injEq, Prod.mk.injEq] at h
      rw [← h.1] at hr
      have hmem := List.of_mem_filter hr
      intro hbeq
      rw [Nat.beq_eq_true_eq] at hbeq
      rw [hbeq] at hmem
      have hc : seen.contains K = true := List.elem_iff.mpr hK
      rw [hc] at hmem
      exact absurd hmem (by simp)
  · rw [if_neg hany] at h
    simp only [Option.some.injEq, Prod.mk.injEq] at h
    rw [← h.1] at hr
    intro hbeq
    rw [Nat.beq_eq_true_eq] at hbeq
    rw [List.any_eq_true] at hany
    exact hany ⟨r, hr, by rw [hbeq]; exact List.elem_iff.mpr hK⟩

/-- Once key K is in the seen set, no later page of an incremental run
appends a record carrying K. -/
theorem syncLoop_no_K_after_seen (fetch : Nat → FetchResult) (batchSize K : Nat) :
    ∀ fuel callIdx offset tw (pending : List Rec) (seen : List Nat), K ∈ seen →
      ∀ df ∈ (syncLoop fetch .incremental batchSize fuel callIdx offset pending seen tw).appends,
        df.any (fun r => r.send_id == K) = false := by
  intro fuel
  induction fuel with
  | zero =>
    intro callIdx offset tw pending seen _ df hdf
    exact absurd hdf (by simp [syncLoop])
  | succ k ih =>
    intro callIdx offset tw pending seen hK df hdf
    cases hf : fetch callIdx with
    | fetchError =>
      rw [syncLoop_err fetch .incremental batchSize k callIdx offset tw pending seen
        (Or.inl hf)] at hdf
      exact ih (callIdx + 1) offset tw pending seen hK df hdf
    | authExhausted =>
      rw [syncLoop_err fetch .incremental batchSize k callIdx offset tw pending seen
        (Or.inr hf)] at hdf
      exact ih (callIdx + 1) offset tw pending seen hK df hdf
    | page entries =>
      by_cases hE : entries.isEmpty
      · rw [syncLoop_empty fetch .incremental batchSize k callIdx offset tw pending seen
          entries hf hE] at hdf
        exact absurd hdf (by simp)
      · have hE' : entries.isEmpty = false := by simpa using hE
        cases hs : stepPage .incremental seen entries with
        | none =>
          rw [syncLoop_frontier_step fetch .incremental batchSize k callIdx offset tw
            pending seen entries hf hE' hs] at hdf
          exact absurd hdf (by simp)
        | some p =>
          obtain ⟨df', seen2⟩ := p
          have hK2 : K ∈ seen2 := by
            rw [stepPage_seen2 hs]
            exact List.mem_append_left _ hK
          by_cases hbs : batchSize ≤ (pending ++ df').length
          · cases hco : coerceBatch (pending ++ df') with
            | none =>
              rw [syncLoop_flush_raise fetch .incremental batchSize k callIdx offset tw
                pending seen seen2 entries df' hf hE' hs hbs hco] at hdf
              rw [List.mem_singleton] at hdf
              rw [hdf]
              exact stepPage_no_seen_key hs hK
            | some out =>
              by_cases hdl : df'.length < 15
              · rw [syncLoop_flush_short fetch .incremental batchSize k callIdx offset tw
                  pending seen seen2 entries df' out hf hE' hs hbs hco hdl] at hdf
                rw [List.mem_singleton] at hdf
                rw [hdf]
                exact stepPage_no_seen_key hs hK
              · rw [syncLoop_flush_cont fetch .incremental batchSize k callIdx offset tw
                  pending seen seen2 entries df' out hf hE' hs hbs hco hdl] at hdf
                rw [List.mem_cons] at hdf
                cases hdf with
                | inl hdf =>
                  rw [hdf]
                  exact stepPage_no_seen_key hs hK
                | inr hdf =>
                  exact ih (callIdx + 1) (offset + 15) (tw + out.length) [] seen2 hK2 df hdf
          · by_cases hdl : df'.length < 15
            · rw [syncLoop_noflush_short fetch .incremental batchSize k callIdx offset tw
                pending seen seen2 entries df' hf hE' hs hbs hdl] at hdf
              rw [List.mem_singleton] at hdf
              rw [hdf]
              exact stepPage_no_seen_key hs hK
            · rw [syncLoop_noflush_cont fetch .incremental batchSize k callIdx offset tw
                pending seen seen2 entries df' hf hE' hs hbs hdl] at hdf
              rw [List.mem_cons] at hdf
              cases hdf with
              | inl hdf =>
                rw [hdf]
                exact stepPage_no_seen_key hs hK
              | inr hdf =>
                exact ih (callIdx + 1) (offset + 15) tw (pending ++ df') seen2 hK2 df hdf

/-- In an incremental run, at most one appended page slice contains a
record with key K: the first such slice puts K into the seen set and
every later page is filtered against it. -/
theorem syncLoop_dedup_le_one (fetch : Nat → FetchResult) (batchSize K : Nat) :
    ∀ fuel callIdx offset tw (pending : List Rec) (seen : List Nat),
      ((syncLoop fetch .incremental batchSize fuel callIdx offset pending seen tw).appends.filter
        (fun df => df.any (fun r => r.send_id == K))).length ≤ 1 := by
  intro fuel
  induction fuel with
  | zero =>
    intro callIdx offset tw pending seen
    simp [syncLoop]
  | succ k ih =>
    intro callIdx offset tw pending seen
    cases hf : fetch callIdx with
    | fetchError =>
      rw [syncLoop_err fetch .incremental batchSize k callIdx offset tw pending seen
        (Or.inl hf)]
      exact ih (callIdx + 1) offset tw pending seen
    | authExhausted =>
      rw [syncLoop_err fetch .incremental batchSize k callIdx offset tw pending seen
        (Or.inr hf)]
      exact ih (callIdx + 1) offset tw pending seen
    | page entries =>
      by_cases hE : entries.isEmpty
      · rw [syncLoop_empty fetch .incremental batchSize k callIdx offset tw pending seen
          entries hf hE]
        simp
      · have hE' : entries.isEmpty = false := by simpa using hE
        cases hs : stepPage .incremental seen entries with
        | none =>
          rw [syncLoop_frontier_step fetch .incremental batchSize k callIdx offset tw
            pending seen entries hf hE' hs]
          simp
        | some p =>
          obtain ⟨df', seen2⟩ := p
          have hcont : ∀ fuel' offset' tw' (pending' : List Rec),
              df'.any (fun r => r.send_id == K) = true →
              ((syncLoop fetch .incremental batchSize fuel' (callIdx + 1) offset' pending'
                seen2 tw').appends.filter
                  (fun df => df.any (fun r => r.send_id == K))).length = 0 := by
            intro fuel' offset' tw' pending' hany
            rw [List.any_eq_true] at hany
            obtain ⟨r, hr, hbeq⟩ := hany
            rw [Nat.beq_eq_true_eq] at hbeq
            have hK2 : K ∈ seen2 := by
              rw [stepPage_seen2 hs, ← hbeq]
              exact List.mem_append_right _ (List.mem_map_of_mem _ hr)
            rw [List.length_eq_zero, List.filter_eq_nil_iff]
            intro df hdf
            have := syncLoop_no_K_after_seen fetch batchSize K fuel' (callIdx + 1) offset'
              tw' pending' seen2 hK2 df hdf
            simp [this]
          by_cases hbs : batchSize ≤ (pending ++ df').length
          · cases hco : coerceBatch (pending ++ df') with
            | none =>
              rw [syncLoop_flush_raise fetch .incremental batchSize k callIdx offset tw
                pending seen seen2 entries df' hf hE' hs hbs hco]
              exact Nat.le_trans (List.length_filter_le _ _) (by simp)
            | some out =>
              by_cases hdl : df'.length < 15
              · rw [syncLoop_flush_short fetch .incremental batchSize k callIdx offset tw
                  pending seen seen2 entries df' out hf hE' hs hbs hco hdl]
                exact Nat.le_trans (List.length_filter_le _ _) (by simp)
              · rw [syncLoop_flush_cont fetch .incremental batchSize k callIdx offset tw
                  pending seen seen2 entries df' out hf hE' hs hbs hco hdl]
                by_cases hany : df'.any (fun r => r.send_id == K) = true
                · simp only [List.filter_cons]
                  rw [if_pos hany, List.length_cons,
                    hcont k (offset + 15) (tw + out.length) [] hany]
                · simp only [List.filter_cons]
                  rw [if_neg hany]
                  exact ih (callIdx + 1) (offset + 15) (tw + out.length) [] seen2
          · by_cases hdl : df'.length < 15
            · rw [syncLoop_noflush_short fetch .incremental batchSize k callIdx offset tw
                pending seen seen2 entries df' hf hE' hs hbs hdl]
              exact Nat.le_trans (List.length_filter_le _ _) (by simp)
            · rw [syncLoop_noflush_cont fetch .incremental batchSize k callIdx offset tw
                pending seen seen2 entries df' hf hE' hs hbs hdl]
              by_cases hany : df'.any (fun r => r.send_id == K) = true
              · simp only [List.filter_cons]
                rw [if_pos hany, List.length_cons,
                  hcont k (offset + 15) tw (pending ++ df') hany]
              · simp only [List.filter_cons]
                rw [if_neg hany]
                exact ih (callIdx + 1) (offset + 15) tw (pending ++ df') seen2

/-- Claim C7 (amended): in every INCREMENTAL run, for every natural key
K, at most one page slice containing a record with key K is ever
appended to the pending batch: once a K-record has been appended (or K
was among the initially seen keys), every later page is filtered
against the seen set and contributes no K-record.  In full mode the
engine performs no cross-page dedup (see the counterexample). -/
theorem c7_dedup_incremental (fetch : Nat → FetchResult) (existingKeys : List Nat)
    (batchSize startOffset fuel K : Nat) :
    ((update_gym_data fetch existingKeys .incremental batchSize startOffset
        fuel).appends.filter
      (fun df => df.any (fun r => r.send_id == K))).length ≤ 1 :=
  syncLoop_dedup_le_one fetch batchSize K fuel 0 startOffset 0 [] existingKeys

/-! ## C8: return value vs. writes -/

/-- Accounting invariant of the sync loop: on normal completion the
returned value is exactly the post-loop flushed batch (`None` when the
pending list was empty at loop exit), and the final total-written
counter equals the counter at entry plus all in-loop writes plus the
post-loop write. -/
theorem syncLoop_done_inv (fetch : Nat → FetchResult) (mode : Mode) (batchSize : Nat) :
    ∀ fuel callIdx offset tw (pending : List Rec) (seen : List Nat)
      (ret : Option (List RecOut)) (total : Nat),
      (syncLoop fetch mode batchSize fuel callIdx offset pending seen tw).outcome
        = .done ret total →
      ret = (syncLoop fetch mode batchSize fuel callIdx offset pending seen tw).finalWrite ∧
      total = tw + ((syncLoop fetch mode batchSize fuel callIdx offset pending seen
          tw).writes.map List.length).sum
        + ((syncLoop fetch mode batchSize fuel callIdx offset pending seen
            tw).finalWrite.getD []).length := by
  intro fuel
  induction fuel with
  | zero =>
    intro callIdx offset tw pending seen ret total h
    exact absurd h (by simp [syncLoop])
  | succ k ih =>
    intro callIdx offset tw pending seen ret total h
    have hfin : ∀ pend tw', (finishSync pend tw').2 = Outcome.done ret total →
        ret = (finishSync pend tw').1 ∧
        total = tw' + ((finishSync pend tw').1.getD []).length := by
      intro pend tw' hf
      unfold finishSync at hf ⊢
      by_cases hp : pend.isEmpty
      · rw [if_pos hp] at hf ⊢
        simp only [Outcome.done.injEq] at hf
        simp [← hf.1, ← hf.2]
      · rw [if_neg hp] at hf ⊢
        cases hco : coerceBatch pend
        · rw [hco] at hf
          exact absurd hf (by simp)
        · rw [hco] at hf
          simp only [Outcome.done.injEq] at hf
          simp [← hf.1, ← hf.2]
    cases hf : fetch callIdx with
    | fetchError =>
      rw [syncLoop_err fetch mode batchSize k callIdx offset tw pending seen (Or.inl hf)] at h ⊢
      exact ih (callIdx + 1) offset tw pending seen ret total h
    | authExhausted =>
      rw [syncLoop_err fetch mode batchSize k callIdx offset tw pending seen (Or.inr hf)] at h ⊢
      exact ih (callIdx + 1) offset tw pending seen ret total h
    | page entries =>
      by_cases hE : entries.isEmpty
      · rw [syncLoop_empty fetch mode batchSize k callIdx offset tw pending seen entries
          hf hE] at h ⊢
        have := hfin pending tw h
        simpa using this
      · have hE' : entries.isEmpty = false := by simpa using hE
        cases hs : stepPage mode seen entries with
        | none =>
          rw [syncLoop_frontier_step fetch mode batchSize k callIdx offset tw pending seen
            entries hf hE' hs] at h ⊢
          have := hfin pending tw h
          simpa using this
        | some p =>
          obtain ⟨df, seen2⟩ := p
          by_cases hbs : batchSize ≤ (pending ++ df).length
          · cases hco : coerceBatch (pending ++ df) with
            | none =>
              rw [syncLoop_flush_raise fetch mode batchSize k callIdx offset tw pending
                seen seen2 entries df hf hE' hs hbs hco] at h
              exact absurd h (by simp)
            | some out =>
              by_cases hdl : df.length < 15
              · rw [syncLoop_flush_short fetch mode batchSize k callIdx offset tw pending
                  seen seen2 entries df out hf hE' hs hbs hco hdl] at h ⊢
                have := hfin [] (tw + out.length) h
                refine ⟨this.1, ?_⟩
                rw [this.2]
                simp
              · rw [syncLoop_flush_cont fetch mode batchSize k callIdx offset tw pending
                  seen seen2 entries df out hf hE' hs hbs hco hdl] at h ⊢
                have := ih (callIdx + 1) (offset + 15) (tw + out.length) [] seen2 ret total h
                refine ⟨this.1, ?_⟩
                rw [this.2]
                simp only [List.map_cons, List.sum_cons]
                omega
          · by_cases hdl : df.length < 15
            · rw [syncLoop_noflush_short fetch mode batchSize k callIdx offset tw pending
                seen seen2 entries df hf hE' hs hbs hdl] at h ⊢
              have := hfin (pending ++ df) tw h
              simpa using this
            · rw [syncLoop_noflush_cont fetch mode batchSize k callIdx offset tw pending
                seen seen2 entries df hf hE' hs hbs hdl] at h ⊢
              exact ih (callIdx + 1) (offset + 15) tw (pending ++ df) seen2 ret total h

/-- Claim C8 (amended): on normal completion, the value returned by
sync is exactly the post-loop flushed batch — `None` precisely when the
pending list is empty at loop exit, even if in-loop flushes wrote
records (see the counterexample) — and the total number of rows written
is the sum of the in-loop batch sizes plus the final batch size. -/
theorem c8_return_final_flush (fetch : Nat → FetchResult) (existingKeys : List Nat)
    (mode : Mode) (batchSize startOffset fuel : Nat)
    (ret : Option (List RecOut)) (total : Nat)
    (h : (update_gym_data fetch existingKeys mode batchSize startOffset fuel).outcome
        = .done ret total) :
    ret = (update_gym_data fetch existingKeys mode batchSize startOffset fuel).finalWrite ∧
    total = ((update_gym_data fetch existingKeys mode batchSize startOffset
        fuel).writes.map List.length).sum
      + ((update_gym_data fetch existingKeys mode batchSize startOffset
          fuel).finalWrite.getD []).length := by
  cases mode with
  | incremental =>
    have := syncLoop_done_inv fetch .incremental batchSize fuel 0 startOffset 0 []
      existingKeys ret total h
    simpa using this
  | full =>
    have := syncLoop_done_inv fetch .full batchSize fuel 0 startOffset 0 [] [] ret total h
    simpa using this

/-- Witness for C8's amended theorem, on the run of the C8
counterexample: the outcome is `done none 1`, the final write is absent,
and the in-loop write accounts for the one written row. -/
theorem c8_return_final_flush_witness :
    (update_gym_data fetchC8 [] .full 1 0 5).outcome = .done none 1 ∧
    ((none : Option (List RecOut))
        = (update_gym_data fetchC8 [] .full 1 0 5).finalWrite ∧
      1 = (((update_gym_data fetchC8 [] .full 1 0 5).writes.map List.length).sum
        + ((update_gym_data fetchC8 [] .full 1 0 5).finalWrite.getD []).length)) :=
  ⟨by decide, c8_return_final_flush fetchC8 [] .full 1 0 5 none 1 (by decide)⟩

/-! ## C10: null handling at flush time -/

/-- Row coercion fails exactly on a null stiffness or ascent_count. -/
theorem coerceRec_eq_none {r : Rec} :
    coerceRec r = none ↔ r.stiffness = none ∨ r.ascent_count = none := by
  unfold coerceRec
  cases hs : r.stiffness <;> cases ha : r.ascent_count <;> simp

/-- Claim C10: the pre-write coercion raises exactly when some record of
the batch has a null `stiffness` or `ascent_count` (bare `astype(int)`),
while null `is_private` / `is_premium` are turned into 0 by `fillna(0)`
and never raise; and when an in-loop flush raises, the loop aborts
immediately with that batch never passed to the store. -/
theorem c10_flush_null_handling :
    (∀ batch : List Rec,
      coerceBatch batch = none ↔
        ∃ r ∈ batch, r.stiffness = none ∨ r.ascent_count = none) ∧
    (∀ (batch : List Rec) (out : List RecOut), coerceBatch batch = some out →
      List.Forall₂ (fun (r : Rec) (o : RecOut) =>
        o.send_id = r.send_id ∧ r.stiffness = some o.stiffness ∧
        r.ascent_count = some o.ascent_count ∧
        o.is_private = r.is_private.getD 0 ∧
        o.is_premium = r.is_premium.getD 0) batch out) ∧
    (∀ (fetch : Nat → FetchResult) (mode : Mode)
      (batchSize fuel callIdx offset tw : Nat) (pending : List Rec)
      (seen seen2 : List Nat) (entries df : List Rec),
      fetch callIdx = .page entries → entries.isEmpty = false →
      stepPage mode seen entries = some (df, seen2) →
      batchSize ≤ (pending ++ df).length →
      coerceBatch (pending ++ df) = none →
      syncLoop fetch mode batchSize (fuel + 1) callIdx offset pending seen tw =
        ⟨[offset], [df], [], none, .flushError⟩) := by
  refine ⟨?_, ?_, ?_⟩
  · intro batch
    induction batch with
    | nil => simp [coerceBatch]
    | cons r rs ih =>
      simp only [coerceBatch]
      constructor
      · intro h
        cases hr : coerceRec r
        · exact ⟨r, by simp, coerceRec_eq_none.mp hr⟩
        · cases hb : coerceBatch rs
          · obtain ⟨x, hx, hxo⟩ := ih.mp hb
            exact ⟨x, by simp [hx], hxo⟩
          · rw [hr, hb] at h
            exact absurd h (by simp)
      · rintro ⟨x, hx, hxo⟩
        rw [List.mem_cons] at hx
        cases hx with
        | inl hx =>
          subst hx
          rw [coerceRec_eq_none.mpr hxo]
        | inr hx =>
          rw [ih.mpr ⟨x, hx, hxo⟩]
          cases coerceRec r <;> rfl
  · intro batch
    induction batch with
    | nil =>
      intro out h
      simp only [coerceBatch, Option.some.injEq] at h
      subst h
      exact List.Forall₂.nil
    | cons r rs ih =>
      intro out h
      simp only [coerceBatch] at h
      cases hr : coerceRec r <;> rw [hr] at h
      · exact absurd h (by simp)
      · cases hb : coerceBatch rs <;> rw [hb] at h
        · exact absurd h (by simp)
        · simp only [Option.some.injEq] at h
          subst h
          refine List.Forall₂.cons ?_ (ih _ hb)
          unfold coerceRec at hr
          cases hs : r.stiffness <;> cases ha : r.ascent_count <;> rw [hs, ha] at hr
          · exact absurd hr (by simp)
          · exact absurd hr (by simp)
          · exact absurd hr (by simp)
          · simp only [Option.some.injEq] at hr
            subst hr
            simp [hs, ha]
  · intro fetch mode batchSize fuel callIdx offset tw pending seen seen2 entries df hf
      hne hstep hbs hco
    exact syncLoop_flush_raise fetch mode batchSize fuel callIdx offset tw pending seen
      seen2 entries df hf hne hstep hbs hco

/-- Witness for C10: a one-row batch with a null stiffness makes the
coercion fail, and the in-loop flush of that batch aborts the run with
nothing written. -/
theorem c10_flush_null_handling_witness :
    coerceBatch [recBad 1] = none ∧
    syncLoop fetchBad .full 1 1 0 0 [] [] 0 =
      ⟨[0], [[recBad 1]], [], none, .flushError⟩ :=
  ⟨(c10_flush_null_handling.1 [recBad 1]).mpr ⟨recBad 1, by decide, Or.inl rfl⟩,
   c10_flush_null_handling.2.2 fetchBad .full 1 0 0 0 0 [] [] [] [recBad 1] [recBad 1]
     rfl (by decide) rfl (by decide) (by decide)⟩

/-! ## C9: write_secrets on the local backend -/

/-- Filtering after mapping is filtering, when the map fixes kept
elements and maps dropped elements to dropped elements. -/
theorem filter_map_eq_filter {α : Type} (p : α → Bool) (f : α → α) :
    ∀ l : List α,
      (∀ x ∈ l, (p x = true → f x = x) ∧ (p x = false → p (f x) = false)) →
      (l.map f).filter p = l.filter p := by
  intro l
  induction l with
  | nil => intro _; rfl
  | cons x xs ih =>
    intro h
    simp only [List.map_cons, List.filter_cons]
    cases hp : p x with
    | false =>
      have hpf := (h x (List.mem_cons_self x xs)).2 hp
      simp only [hpf, hp, Bool.false_eq_true, if_false]
      exact ih fun y hy => h y (List.mem_cons_of_mem x hy)
    | true =>
      have hfx := (h x (List.mem_cons_self x xs)).1 hp
      rw [hfx]
      simp only [hp, if_true]
      rw [ih fun y hy => h y (List.mem_cons_of_mem x hy)]

/-- `List.any` only depends on the predicate's values on the list. -/
theorem any_congr_mem {α : Type} (p q : α → Bool) :
    ∀ l : List α, (∀ x ∈ l, p x = q x) → l.any p = l.any q := by
  intro l
  induction l with
  | nil => intro _; rfl
  | cons x xs ih =>
    intro h
    simp only [List.any_cons]
    rw [h x (List.mem_cons_self x xs), ih fun y hy => h y (List.mem_cons_of_mem x hy)]

/-- `update_env_var`, written as map-then-conditional-append. -/
theorem uev_eq (lines : List String) (var v : String) :
    update_env_var lines var v =
      lines.map (fun l => if isMatch var l then envLine var v else l)
        ++ (if lines.any (fun l => isMatch var l) then [] else [envLine var v]) := by
  unfold update_env_var
  by_cases h : lines.any (fun l => isMatch var l)
  · simp [h]
  · simp [h]

/-- Composition of the two `update_env_var` passes of `write_secrets`:
replace every `va=` line with the new `va` line and every `vb=` line
with the new `vb` line, in place; append the `va` line and then the
`vb` line when the respective key was absent.  Hypotheses: the new `va`
line is not itself a `vb=` line, and no original line matches both
keys. -/
theorem uev_compose (lines : List String) (va vb A B : String)
    (hBA : isMatch vb (envLine va A) = false)
    (hdisj : ∀ l ∈ lines, ¬(isMatch va l = true ∧ isMatch vb l = true)) :
    update_env_var (update_env_var lines va A) vb B =
      lines.map (fun l => if isMatch va l then envLine va A
          else if isMatch vb l then envLine vb B else l)
        ++ ((if lines.any (fun l => isMatch va l) then [] else [envLine va A])
          ++ (if lines.any (fun l => isMatch vb l) then [] else [envLine vb B])) := by
  have hmapmap : (lines.map (fun l => if isMatch va l then envLine va A else l)).map
      (fun l => if isMatch vb l then envLine vb B else l) =
      lines.map (fun l => if isMatch va l then envLine va A
        else if isMatch vb l then envLine vb B else l) := by
    rw [List.map_map]
    apply List.map_congr_left
    intro l _
    simp only [Function.comp_apply]
    by_cases h1 : isMatch va l
    · simp [h1, hBA]
    · simp [h1]
  have hanymap : (lines.map (fun l => if isMatch va l then envLine va A else l)).any
      (fun l => isMatch vb l) = lines.any (fun l => isMatch vb l) := by
    rw [List.any_map]
    apply any_congr_mem
    intro l hl
    simp only [Function.comp_apply]
    by_cases h1 : isMatch va l
    · simp only [h1, if_true, hBA]
      cases hvb : isMatch vb l with
      | false => rfl
      | true => exact absurd ⟨h1, hvb⟩ (hdisj l hl)
    · simp [h1]
  rw [uev_eq lines va A, uev_eq _ vb B, List.map_append, List.any_append]
  by_cases hA : lines.any (fun l => isMatch va l)
  · simp only [hA, if_true, List.map_nil, List.append_nil, List.any_nil, Bool.or_false]
    rw [hmapmap, hanymap, List.nil_append]
  · have hA' : lines.any (fun l => isMatch va l) = false := by simpa using hA
    simp only [hA', Bool.false_eq_true, if_false, List.map_cons, List.map_nil, hBA,
      List.any_cons, List.any_nil, Bool.or_false]
    rw [hmapmap, hanymap, List.append_assoc]

/-- Claim C9: after `write_secrets` on the local backend, the in-process
cache holds the new pair; the file equals the original with every
`KAYA_API_TOKEN=` line replaced in place by the new access-token line
and every `KAYA_REFRESH_TOKEN=` line replaced in place by the new
refresh-token line, with missing keys appended at the end; both new
lines are present; and the lines matching neither key are unchanged and
in their original order. -/
theorem c9_write_secrets_local (st : SecretsState) (a r : String)
    (h1 : isMatch "KAYA_REFRESH_TOKEN" (envLine "KAYA_API_TOKEN" a) = false)
    (h2 : isMatch "KAYA_API_TOKEN" (envLine "KAYA_API_TOKEN" a) = true)
    (h4 : isMatch "KAYA_REFRESH_TOKEN" (envLine "KAYA_REFRESH_TOKEN" r) = true)
    (h5 : ∀ l ∈ st.envFile,
      ¬(isMatch "KAYA_API_TOKEN" l = true ∧ isMatch "KAYA_REFRESH_TOKEN" l = true)) :
    (write_secrets st a r).envApi = some a ∧
    (write_secrets st a r).envRefresh = some r ∧
    (write_secrets st a r).envFile =
      st.envFile.map (fun l => if isMatch "KAYA_API_TOKEN" l then envLine "KAYA_API_TOKEN" a
          else if isMatch "KAYA_REFRESH_TOKEN" l then envLine "KAYA_REFRESH_TOKEN" r else l)
        ++ ((if st.envFile.any (fun l => isMatch "KAYA_API_TOKEN" l) then []
             else [envLine "KAYA_API_TOKEN" a])
          ++ (if st.envFile.any (fun l => isMatch "KAYA_REFRESH_TOKEN" l) then []
              else [envLine "KAYA_REFRESH_TOKEN" r])) ∧
    envLine "KAYA_API_TOKEN" a ∈ (write_secrets st a r).envFile ∧
    envLine "KAYA_REFRESH_TOKEN" r ∈ (write_secrets st a r).envFile ∧
    (write_secrets st a r).envFile.filter
        (fun l => !(isMatch "KAYA_API_TOKEN" l) && !(isMatch "KAYA_REFRESH_TOKEN" l))
      = st.envFile.filter
        (fun l => !(isMatch "KAYA_API_TOKEN" l) && !(isMatch "KAYA_REFRESH_TOKEN" l)) := by
  have hchar : (write_secrets st a r).envFile =
      st.envFile.map (fun l => if isMatch "KAYA_API_TOKEN" l then envLine "KAYA_API_TOKEN" a
          else if isMatch "KAYA_REFRESH_TOKEN" l then envLine "KAYA_REFRESH_TOKEN" r else l)
        ++ ((if st.envFile.any (fun l => isMatch "KAYA_API_TOKEN" l) then []
             else [envLine "KAYA_API_TOKEN" a])
          ++ (if st.envFile.any (fun l => isMatch "KAYA_REFRESH_TOKEN" l) then []
              else [envLine "KAYA_REFRESH_TOKEN" r])) :=
    uev_compose st.envFile "KAYA_API_TOKEN" "KAYA_REFRESH_TOKEN" a r h1 h5
  refine ⟨rfl, rfl, hchar, ?_, ?_, ?_⟩
  · rw [hchar]
    by_cases hA : st.envFile.any (fun l => isMatch "KAYA_API_TOKEN" l)
    · rw [List.any_eq_true] at hA
      obtain ⟨l, hl, hm⟩ := hA
      refine List.mem_append_left _ (List.mem_map.mpr ⟨l, hl, ?_⟩)
      simp [hm]
    · have hA' : st.envFile.any (fun l => isMatch "KAYA_API_TOKEN" l) = false := by
        simpa using hA
      refine List.mem_append_right _ ?_
      simp [hA']
  · rw [hchar]
    by_cases hB : st.envFile.any (fun l => isMatch "KAYA_REFRESH_TOKEN" l)
    · rw [List.any_eq_true] at hB
      obtain ⟨l, hl, hm⟩ := hB
      have hnva : isMatch "KAYA_API_TOKEN" l = false := by
        cases hva : isMatch "KAYA_API_TOKEN" l with
        | false => rfl
        | true => exact absurd ⟨hva, hm⟩ (h5 l hl)
      refine List.mem_append_left _ (List.mem_map.mpr ⟨l, hl, ?_⟩)
      simp [hnva, hm]
    · have hB' : st.envFile.any (fun l => isMatch "KAYA_REFRESH_TOKEN" l) = false := by
        simpa using hB
      refine List.mem_append_right _ ?_
      simp [hB']
  · rw [hchar, List.filter_append, List.filter_append]
    have hT1 : (if st.envFile.any (fun l => isMatch "KAYA_API_TOKEN" l) then []
        else [envLine "KAYA_API_TOKEN" a]).filter
          (fun l => !(isMatch "KAYA_API_TOKEN" l) && !(isMatch "KAYA_REFRESH_TOKEN" l))
        = [] := by
      by_cases hA : st.envFile.any (fun l => isMatch "KAYA_API_TOKEN" l)
      · simp [hA]
      · have hA' : st.envFile.any (fun l => isMatch "KAYA_API_TOKEN" l) = false := by
          simpa using hA
        simp [hA', h2]
    have hT2 : (if st.envFile.any (fun l => isMatch "KAYA_REFRESH_TOKEN" l) then []
        else [envLine "KAYA_REFRESH_TOKEN" r]).filter
          (fun l => !(isMatch "KAYA_API_TOKEN" l) && !(isMatch "KAYA_REFRESH_TOKEN" l))
        = [] := by
      by_cases hB : st.envFile.any (fun l => isMatch "KAYA_REFRESH_TOKEN" l)
      · simp [hB]
      · have hB' : st.envFile.any (fun l => isMatch "KAYA_REFRESH_TOKEN" l) = false := by
          simpa using hB
        simp [hB', h4]
    rw [hT1, hT2, List.append_nil, List.append_nil]
    apply filter_map_eq_filter
    intro x hx
    constructor
    · intro hpx
      simp only [Bool.and_eq_true, Bool.not_eq_true'] at hpx
      simp [hpx.1, hpx.2]
    · intro hpx
      cases hva : isMatch "KAYA_API_TOKEN" x with
      | true =>
        simp only [hva, if_true]
        simp [h2]
      | false =>
        cases hvb : isMatch "KAYA_REFRESH_TOKEN" x with
        | true =>
          simp only [hva, Bool.false_eq_true, if_false, hvb, if_true]
          simp [h4]
        | false =>
          rw [hva, hvb] at hpx
          simp at hpx

/-- Witness for C9 on a concrete three-line file: an unrelated line, an
existing access-token line and another unrelated line; the refresh
token key is absent and gets appended. -/
theorem c9_write_secrets_local_witness :
    (isMatch "KAYA_REFRESH_TOKEN" (envLine "KAYA_API_TOKEN" "newA") = false) ∧
    (isMatch "KAYA_API_TOKEN" (envLine "KAYA_API_TOKEN" "newA") = true) ∧
    (isMatch "KAYA_REFRESH_TOKEN" (envLine "KAYA_REFRESH_TOKEN" "newR") = true) ∧
    (∀ l ∈ stC9.envFile,
      ¬(isMatch "KAYA_API_TOKEN" l = true ∧ isMatch "KAYA_REFRESH_TOKEN" l = true)) ∧
    envLine "KAYA_API_TOKEN" "newA" ∈ (write_secrets stC9 "newA" "newR").envFile ∧
    envLine "KAYA_REFRESH_TOKEN" "newR" ∈ (write_secrets stC9 "newA" "newR").envFile :=
  ⟨by decide, by decide, by decide, by decide,
   (c9_write_secrets_local stC9 "newA" "newR" (by decide) (by decide) (by decide)
     (by decide)).2.2.2.1,
   (c9_write_secrets_local stC9 "newA" "newR" (by decide) (by decide) (by decide)
     (by decide)).2.2.2.2.1⟩
